import Mathlib

/-!
Verification development for the caffe command-line tool (`src/tools/caffe.cpp`).

The file shallowly embeds the control/aggregation logic of the tool:
the command registry (`GetBrewFunction`, `main`), the device selector
(`get_gpus`), the `train` orchestration skeleton, the classification and
detection branches of `test`, and the benchmark loop of `time`.

Floating-point values of the source (scores, losses, timer readings) are
modelled as exact rationals; C++ `static_cast<int>(float)` is modelled by
truncation toward zero; C++ machine `int` is modelled as `Int` with explicit
range checks where the source's behaviour depends on them; code that can
abort (uncaught `boost::bad_lexical_cast`, `LOG(FATAL)`, `CHECK` macros)
is modelled with `Option`/error values.
-/

/-- Truncation toward zero, the semantics of C++ `static_cast<int>` applied to
a (here exactly represented) floating-point value. -/
def ratTrunc (q : ℚ) : Int :=
  if 0 ≤ q then ⌊q⌋ else ⌈q⌉

/-! ### Device Selector (`get_gpus`, caffe.cpp lines 111-131)

`boost::split(strings, FLAGS_gpu, boost::is_any_of(","))` splits the flag on
every comma (keeping empty tokens) and `boost::lexical_cast<int>` parses each
token; a malformed token throws `bad_lexical_cast`, which no caller catches,
aborting the invocation.  `lexical_cast<int>` accepts an optional sign
followed by decimal digits, with no whitespace and no trailing junk, and
fails on values outside the range of `int`. -/

/-- Decimal value of a list of digit characters. -/
def digitsVal (ds : List Char) : ℕ :=
  ds.foldl (fun a c => 10 * a + (c.toNat - Char.toNat '0')) 0

/-- One comma-delimited piece: `boost::split(strings, s, boost::is_any_of(","))`
cuts at every comma and keeps empty pieces. -/
def split_commas : List Char → List (List Char)
  | [] => [[]]
  | c :: cs =>
    if c = ',' then [] :: split_commas cs
    else
      match split_commas cs with
      | [] => [[c]]
      | t :: ts => (c :: t) :: ts

/-- Sign/digit syntax accepted by `boost::lexical_cast<int>`. -/
def parseIntCore (s : List Char) : Option Int :=
  match s with
  | [] => none
  | c :: cs =>
    if c = '-' then
      if cs ≠ [] ∧ cs.all Char.isDigit then some (-(digitsVal cs : Int)) else none
    else if c = '+' then
      if cs ≠ [] ∧ cs.all Char.isDigit then some ((digitsVal cs : Int)) else none
    else if (c :: cs).all Char.isDigit then some ((digitsVal (c :: cs) : Int))
    else none

/-- `boost::lexical_cast<int>`: syntax check plus 32-bit `int` range check;
`none` models the thrown `bad_lexical_cast` (which aborts the tool). -/
def parseIntToken (s : List Char) : Option Int :=
  (parseIntCore s).bind fun n =>
    if -(2 ^ 31) ≤ n ∧ n ≤ 2 ^ 31 - 1 then some n else none

/-- The `gpus->push_back(boost::lexical_cast<int>(strings[i]))` loop:
every token is parsed in order; the first malformed token aborts. -/
def parseTokens : List (List Char) → Option (List Int)
  | [] => some []
  | t :: ts =>
    match parseIntToken t with
    | none => none
    | some v => (parseTokens ts).map (fun l => v :: l)

/-- `get_gpus` (caffe.cpp lines 111-131).  `availCount` is the device count
returned by `Caffe::EnumerateDevices(true)` for the `"all"` branch (in a
CPU-only build that branch aborts via `NO_GPU`, which is outside the claims
settled here).  `none` models an aborted invocation. -/
def get_gpus (gpu : String) (availCount : ℕ) : Option (List Int) :=
  if gpu = "all" then
    some ((List.range availCount).map Int.ofNat)
  else if gpu.length ≠ 0 then
    parseTokens (split_commas gpu.data)
  else
    some []

/-! ### Command Registry (`g_brew_map`, `GetBrewFunction`, `main`)

A registered brew function takes no arguments and returns an `int` status;
the registry is modelled as an association list from command name to the
status the function returns.  In the source every registered function
(`actions`, `autotune`, `device_query`, `test`, `time`, `train`) ends in
`return 0;` — failures abort via `LOG(FATAL)`/`CHECK` instead of returning. -/

/-- `g_brew_map.count(name)` / `g_brew_map[name]` for an existing key,
as one lookup. -/
def lookup_brew (reg : List (String × Int)) (name : String) : Option Int :=
  (reg.find? (fun p => p.1 == name)).map Prod.snd

/-- `GetBrewFunction` (caffe.cpp lines 101-108): a registered name returns
its function; an unknown name logs an error and returns
`g_brew_map["actions"]`.  The result is the status the dispatched function
returns (`none` only if even `"actions"` were unregistered, which cannot
happen in the source). -/
def GetBrewFunction (reg : List (String × Int)) (name : String) : Option Int :=
  if (lookup_brew reg name).isSome then lookup_brew reg name
  else lookup_brew reg "actions"

/-- `main`'s dispatch `return GetBrewFunction(caffe::string(argv[1]))() != 0;`
(caffe.cpp line 693): process exit status 1 if the dispatched function
returns nonzero, else 0. -/
def main_dispatch (reg : List (String × Int)) (name : String) : Option ℕ :=
  (GetBrewFunction reg name).map (fun r => if r = 0 then 0 else 1)

/-- The registry contents of the source, in `std::map` key order; every
registered function returns 0 on normal completion. -/
def g_brew_map : List (String × Int) :=
  [("actions", 0), ("autotune", 0), ("device_query", 0),
   ("test", 0), ("time", 0), ("train", 0)]

/-! ### Training Orchestrator (`train`, caffe.cpp lines 220-311)

`train` is a straight-line sequence of validations and side effects; it is
embedded as a function returning the ordered list of external side effects
performed (solver construction, restore, weight copy, solve dispatch) paired
with the fatal error that aborted it, if any.  A `CHECK`/`LOG(FATAL)` abort
produces no further events.  The preprocessor configuration (`USE_CUDA`,
`USE_NCCL`) is a parameter, since the multi-GPU dispatch at lines 288-296
depends on it.  `FLAGS_level`/`FLAGS_stage` only decorate the solver
parameters and cannot fail, so they are not tracked. -/

/-- The command-line flags `train` reads. -/
structure TrainFlags where
  solver : String
  snapshot : String
  weights : String
  gpu : String
  sigint_effect : String
  sighup_effect : String
deriving DecidableEq

/-- `SolverParameter_SolverMode`. -/
inductive SolverMode | CPU | GPU
deriving DecidableEq

/-- The fields of the parsed solver prototxt that `train` consults:
`has_solver_mode()/solver_mode()` and `has_device_id()/device_id()`. -/
structure SolverParams where
  solver_mode : Option SolverMode
  device_id : Option Int
deriving DecidableEq

/-- Preprocessor configuration of the build. -/
structure BuildConfig where
  useCuda : Bool
  useNccl : Bool
deriving DecidableEq

/-- External side effects of `train`, in program order. -/
inductive TrainEvent
  | createSolver
  | restore
  | copyWeights
  | solveSingle
  | runMultiGpu
deriving DecidableEq

/-- The distinct `CHECK`/`LOG(FATAL)` sites `train` can abort at. -/
inductive TrainFatal
  | needSolver
  | snapshotAndWeights
  | gpuParse
  | badSignal
  | noNccl
deriving DecidableEq

/-- `caffe::SolverAction::Enum`. -/
inductive SolverAction | STOP | SNAPSHOT | NONE
deriving DecidableEq

/-- `GetRequestedAction` (caffe.cpp lines 204-217); `none` models the
`LOG(FATAL)` on an invalid effect name. -/
def GetRequestedAction (flag_value : String) : Option SolverAction :=
  if flag_value = "stop" then some SolverAction.STOP
  else if flag_value = "snapshot" then some SolverAction.SNAPSHOT
  else if flag_value = "none" then some SolverAction.NONE
  else none

/-- The gpu-flag defaulting of caffe.cpp lines 237-246: with no `-gpu` flag
and a solver prototxt in GPU mode, fall back to the prototxt device id,
defaulting to device 0. -/
def train_effective_gpu (gpu : String) (sp : SolverParams) : String :=
  if gpu.length = 0 ∧ sp.solver_mode = some SolverMode.GPU then
    match sp.device_id with
    | some d => toString d
    | none => toString (0 : Int)
  else gpu

/-- `train` (caffe.cpp lines 220-311): returns the events performed before
completion or abort, and the abort cause if any. -/
def train_run (f : TrainFlags) (sp : SolverParams) (b : BuildConfig)
    (availCount : ℕ) : List TrainEvent × Option TrainFatal :=
  if f.solver.length = 0 then
    ([], some TrainFatal.needSolver)
  else if f.snapshot.length ≠ 0 ∧ f.weights.length ≠ 0 then
    ([], some TrainFatal.snapshotAndWeights)
  else
    match get_gpus (train_effective_gpu f.gpu sp) availCount with
    | none => ([], some TrainFatal.gpuParse)
    | some gpus =>
      match GetRequestedAction f.sigint_effect with
      | none => ([], some TrainFatal.badSignal)
      | some _ =>
        match GetRequestedAction f.sighup_effect with
        | none => ([], some TrainFatal.badSignal)
        | some _ =>
          let ev := [TrainEvent.createSolver] ++
            (if f.snapshot.length ≠ 0 then [TrainEvent.restore]
             else if f.weights.length ≠ 0 then [TrainEvent.copyWeights]
             else [])
          if gpus.length > 1 then
            if b.useCuda then
              if b.useNccl then (ev ++ [TrainEvent.runMultiGpu], none)
              else (ev, some TrainFatal.noNccl)
            else (ev, none)
          else (ev ++ [TrainEvent.solveSingle], none)

/-! ### Benchmark Timer (`time`, caffe.cpp lines 490-617)

Wall-clock durations are inputs of the embedding: `fwdDur j` is what
`forward_timer.MicroSeconds()` reads in iteration `j`, `layerFwd j i` /
`layerBwd j i` what `layer_timers[i].MicroSeconds()` reads after layer `i`'s
forward / backward call in iteration `j`, and `totalDur` what
`total_timer.MilliSeconds()` reads at the end.  The loop structure —
which of those readings are accumulated into which report field, under
which flags — is taken verbatim from the source. -/

/-- The quantities the final report prints. -/
structure TimeReport where
  forward_time_per_layer : List ℚ
  backward_time_per_layer : List ℚ
  forward_time : ℚ
  backward_time : ℚ
  total_time : ℚ
deriving DecidableEq

/-- The `if (FLAGS_lt)` per-layer forward accumulation (lines 557-561):
`forward_time_per_layer[i] += layer_timers[i].MicroSeconds()`. -/
def fwd_lt_loop (layerFwd : ℕ → ℚ) : List ℕ → List ℚ → List ℚ
  | [], per => per
  | i :: rest, per =>
    fwd_lt_loop layerFwd rest (per.set i (per.getD i 0 + layerFwd i))

/-- The `if (FLAGS_lt)` per-layer backward accumulation (lines 574-579):
`backward_time_per_layer[i] += layer_timers[i].MicroSeconds();
backward_time += backward_time_per_layer[i];` — note that the aggregate
`backward_time` is only ever touched inside this per-layer-timing branch,
and it adds the already-accumulated per-layer totals. -/
def bwd_lt_loop (layerBwd : ℕ → ℚ) : List ℕ → List ℚ × ℚ → List ℚ × ℚ
  | [], st => st
  | i :: rest, (per, bt) =>
    bwd_lt_loop layerBwd rest
      (per.set i (per.getD i 0 + layerBwd i),
       bt + (per.getD i 0 + layerBwd i))

/-- One iteration of the benchmark loop (lines 541-583), acting on the state
`(forward_time_per_layer, backward_time_per_layer, forward_time,
backward_time)`. -/
def time_iter (numLayers : ℕ) (isTrain lt : Bool)
    (fwdDur : ℚ) (layerFwd layerBwd : ℕ → ℚ)
    (st : List ℚ × List ℚ × ℚ × ℚ) : List ℚ × List ℚ × ℚ × ℚ :=
  let ft := st.2.2.1 + fwdDur
  let fp := if lt then fwd_lt_loop layerFwd (List.range numLayers) st.1 else st.1
  let bst :=
    if isTrain ∧ lt then bwd_lt_loop layerBwd (List.range numLayers) (st.2.1, st.2.2.2)
    else (st.2.1, st.2.2.2)
  (fp, bst.1, ft, bst.2)

/-- The `time` benchmark (lines 531-604): per-layer tables start as
`layers.size()` zeros, the loop runs `FLAGS_iterations` times, and the
report carries the four accumulated quantities plus the total timer
reading. -/
def time_run (numLayers : ℕ) (isTrain lt : Bool) (iterations : ℕ)
    (fwdDur : ℕ → ℚ) (layerFwd layerBwd : ℕ → ℕ → ℚ) (totalDur : ℚ) :
    TimeReport :=
  let st := (List.range iterations).foldl
    (fun st j => time_iter numLayers isTrain lt (fwdDur j) (layerFwd j) (layerBwd j) st)
    (List.replicate numLayers 0, List.replicate numLayers 0, 0, 0)
  ⟨st.1, st.2.1, st.2.2.1, st.2.2.2, totalDur⟩

/-! ### Evaluation Aggregator, classification branch (`test`, lines 434-473)

One forward pass yields an ordered list of output blobs, each a list of
scalars (`result[j]->cpu_data()[k]`, `k < result[j]->count()`), plus an
iteration loss.  Iteration 0 pushes every scalar onto `test_score` in
`j`-then-`k` order (the flattening of the blob list); iterations `i > 0`
execute `test_score[idx] += score` with `idx` a running counter over the
same `j`-then-`k` order.  `std::vector::operator[]` performs no bounds
check, so an out-of-range `idx` is undefined behaviour: the embedding
returns `none` there.  (`test_score_output_id` only selects the blob name
and loss weight used to label the report, so it is not tracked.) -/

/-- `test_score[idx] += score` with the out-of-bounds case made explicit. -/
def class_add_scalar (ts : List ℚ) (idx : ℕ) (s : ℚ) : Option (List ℚ) :=
  if h : idx < ts.length then some (ts.set idx (ts.get ⟨idx, h⟩ + s)) else none

/-- The inner `k` loop over one blob's scalars, threading the running
flattened index. -/
def class_add_blob (ts : List ℚ) (idx : ℕ) : List ℚ → Option (List ℚ × ℕ)
  | [] => some (ts, idx)
  | s :: ss =>
    match class_add_scalar ts idx s with
    | none => none
    | some ts1 => class_add_blob ts1 (idx + 1) ss

/-- The `j` loop over the result blobs of one iteration (`idx` starts at 0
each iteration, line 442). -/
def class_add_result (ts : List ℚ) (idx : ℕ) : List (List ℚ) → Option (List ℚ × ℕ)
  | [] => some (ts, idx)
  | blob :: rest =>
    match class_add_blob ts idx blob with
    | none => none
    | some (ts1, idx1) => class_add_result ts1 idx1 rest

/-- Iterations `1 .. N-1` of the classification loop: running sums and
cumulative loss. -/
def class_go (ts : List ℚ) (loss : ℚ) :
    List (List (List ℚ) × ℚ) → Option (List ℚ × ℚ)
  | [] => some (ts, loss)
  | (r, l) :: rest =>
    match class_add_result ts 0 r with
    | none => none
    | some (ts1, _) => class_go ts1 (loss + l) rest

/-- The whole classification loop (lines 434-458) over the per-iteration
forward results: iteration 0 initialises `test_score` with the flattened
scalars (`push_back` in `j`-then-`k` order is exactly the flattening), the
rest accumulate. -/
def class_run : List (List (List ℚ) × ℚ) → Option (List ℚ × ℚ)
  | [] => some ([], 0)
  | (r0, l0) :: rest => class_go r0.flatten l0 rest

/-- The reported quantities (lines 459-473): `loss /= FLAGS_iterations` and
`mean_score = test_score[i] / FLAGS_iterations`, where `FLAGS_iterations`
is the number of iterations run. -/
def class_means (iters : List (List (List ℚ) × ℚ)) : Option (List ℚ × ℚ) :=
  (class_run iters).map
    (fun p => (p.1.map (fun s => s / (iters.length : ℚ)), p.2 / (iters.length : ℚ)))

/-! ### Evaluation Aggregator, detection branch (`test_detection`, lines 314-403)

Each output blob row holds five floats `result_vec[k*5 .. k*5+4]`:
item id, label, score-or-count, true-positive flag, false-positive flag;
the first, second, fourth and fifth are read through `static_cast<int>`.
The three accumulators are `std::map`s keyed by label (for one output
blob index; the outer `j` key picks an independent accumulator per output
blob, and rows of blob `j` only ever touch accumulator `j`, so the
embedding processes one output index's row stream).  `std::map` is
embedded as an association list; the claims settled here only consume it
through key lookup, the per-key sequences, the number of keys, and sums
over all keys, all of which are independent of the key order. -/

/-- One five-float row of a detection output blob. -/
structure DetRow where
  c0 : ℚ
  c1 : ℚ
  c2 : ℚ
  c3 : ℚ
  c4 : ℚ
deriving DecidableEq

/-- The per-output-index accumulators `all_true_pos[j]`, `all_false_pos[j]`,
`all_num_pos[j]`. -/
structure DetAccum where
  true_pos : List (Int × List (ℚ × Int))
  false_pos : List (Int × List (ℚ × Int))
  num_pos : List (Int × Int)
deriving DecidableEq

/-- `std::map::find` (key lookup). -/
def alist_find {α : Type} : List (Int × α) → Int → Option α
  | [], _ => none
  | (k, v) :: rest, label => if k = label then some v else alist_find rest label

/-- Lines 334-338: `all_num_pos[j][label] = c` on a fresh label,
`all_num_pos[j][label] += c` on an existing one. -/
def numpos_add : List (Int × Int) → Int → Int → List (Int × Int)
  | [], label, c => [(label, c)]
  | (k, v) :: rest, label, c =>
    if k = label then (k, v + c) :: rest else (k, v) :: numpos_add rest label c

/-- Lines 349-350: `m[label].push_back(pr)`, creating the entry if absent. -/
def pairs_push : List (Int × List (ℚ × Int)) → Int → ℚ × Int →
    List (Int × List (ℚ × Int))
  | [], label, pr => [(label, [pr])]
  | (k, v) :: rest, label, pr =>
    if k = label then (k, v ++ [pr]) :: rest else (k, v) :: pairs_push rest label pr

/-- Processing of one row (lines 330-351): a sentinel row (`item_id == -1`)
adds its count into `num_pos`; a detection row with both flags zero is
skipped; any other detection row appends `(score, tp)` to `true_pos[label]`
and `(score, fp)` to `false_pos[label]`. -/
def det_process_row (acc : DetAccum) (r : DetRow) : DetAccum :=
  let item_id := ratTrunc r.c0
  let label := ratTrunc r.c1
  if item_id = -1 then
    { acc with num_pos := numpos_add acc.num_pos label (ratTrunc r.c2) }
  else
    if ratTrunc r.c3 = 0 ∧ ratTrunc r.c4 = 0 then acc
    else
      { acc with
        true_pos := pairs_push acc.true_pos label (r.c2, ratTrunc r.c3),
        false_pos := pairs_push acc.false_pos label (r.c2, ratTrunc r.c4) }

/-- The accumulation loop of `test_detection` (lines 321-354) for one output
index: `rows` is the concatenation, in iteration order, of that output
blob's rows across all forward iterations. -/
def det_accumulate (rows : List DetRow) : DetAccum :=
  rows.foldl det_process_row ⟨[], [], []⟩

/-- The mAP numerator loop (lines 374-394) for one output index: iterate the
`num_pos` map; a label missing from `true_pos` or `false_pos` logs a warning
and is skipped; otherwise the external `caffe::ComputeAP` (here the oracle
`ap`, taking the true-positive pairs, the positives count and the
false-positive pairs) contributes its average precision to the sum. -/
def det_ap_sum (ap : List (ℚ × Int) → Int → List (ℚ × Int) → ℚ)
    (tp fp : List (Int × List (ℚ × Int))) : List (Int × Int) → ℚ
  | [] => 0
  | (label, np) :: rest =>
    match alist_find tp label with
    | none => det_ap_sum ap tp fp rest
    | some ltp =>
      match alist_find fp label with
      | none => det_ap_sum ap tp fp rest
      | some lfp => ap ltp np lfp + det_ap_sum ap tp fp rest

/-- Line 395: `mAP /= num_pos.size()` — the denominator is the number of
labels in the positives-count map, skipped or not. -/
def det_mAP (ap : List (ℚ × Int) → Int → List (ℚ × Int) → ℚ)
    (acc : DetAccum) : ℚ :=
  det_ap_sum ap acc.true_pos acc.false_pos acc.num_pos / (acc.num_pos.length : ℚ)

/-! ### Concrete configurations used by the theorems below -/

/-- A `train` invocation supplying both a snapshot and pretrained weights. -/
def trainFlagsBoth : TrainFlags :=
  ⟨"lenet_solver.prototxt", "snap.solverstate", "w.caffemodel", "", "stop", "snapshot"⟩

/-- A `train` invocation requesting two devices. -/
def trainFlagsMultiGpu : TrainFlags :=
  ⟨"lenet_solver.prototxt", "", "", "0,1", "stop", "snapshot"⟩

/-- C1: at a model with one layer, TRAIN phase, one iteration, per-layer
timing disabled and every timer reading equal to one microsecond, the
benchmark reports all-zero per-layer tables and a nonzero forward and total
time — but an aggregate backward time of exactly zero, because
`backward_time` is only ever accumulated inside the `if (FLAGS_lt)` branch
(caffe.cpp lines 574-579).  This contradicts the claim (and the code's own
"Average Backward pass" report) that the aggregate backward time is nonzero
whenever a TRAIN-phase layer ran. -/
theorem time_lt_disabled_backward_zero :
    time_run 1 true false 1 (fun _ => 1) (fun _ _ => 1) (fun _ _ => 1) 1
      = ⟨[0], [0], 1, 0, 1⟩ := by
  norm_num [time_run, time_iter, List.range_succ]

/-- C2 counterexample: dispatching the unknown command name `"frobnicate"`
exits with status 0, not a nonzero status: the registry fallback is the
`actions` listing, which returns 0, and `main` turns that into exit
status 0. -/
theorem brew_unknown_command_exit_zero :
    lookup_brew g_brew_map "frobnicate" = none ∧
    main_dispatch g_brew_map "frobnicate" = some 0 := by decide

/-- C2 (amended): for any registry whose `"actions"` entry returns 0 (as in
the source), an unknown command dispatches the fallback listing and the
process exits with status 0 — it does not fail with a nonzero status —
and for a registered command the exit status is 0 exactly when the
dispatched function returns 0. -/
theorem brew_dispatch_exit_status (reg : List (String × Int)) (name : String)
    (ha : lookup_brew reg "actions" = some 0) :
    (lookup_brew reg name = none → main_dispatch reg name = some 0)
    ∧ (∀ r : Int, lookup_brew reg name = some r →
        (main_dispatch reg name = some 0 ↔ r = 0)) := by
  constructor
  · intro h
    simp [main_dispatch, GetBrewFunction, h, ha]
  · intro r h
    by_cases hr : r = 0 <;> simp [main_dispatch, GetBrewFunction, h, hr]

/-- C2 witness: the amended statement at the concrete registry of the source
and the unknown name `"bogus"`. -/
theorem brew_dispatch_exit_status_witness :
    (lookup_brew g_brew_map "bogus" = none → main_dispatch g_brew_map "bogus" = some 0)
    ∧ (∀ r : Int, lookup_brew g_brew_map "bogus" = some r →
        (main_dispatch g_brew_map "bogus" = some 0 ↔ r = 0)) :=
  brew_dispatch_exit_status g_brew_map "bogus" (by decide)

/-- C7: whenever both a snapshot and a pretrained-weights list are supplied,
`train` aborts at the validation `CHECK`s (caffe.cpp lines 221-224) with no
events at all: no solver is constructed and no restore or weight-copy
occurs.  (If the solver flag is also missing, the earlier `CHECK` fires
first; either way the command dies before any side effect.) -/
theorem train_snapshot_weights_mutually_exclusive
    (f : TrainFlags) (sp : SolverParams) (b : BuildConfig) (n : ℕ)
    (hs : f.snapshot.length ≠ 0) (hw : f.weights.length ≠ 0) :
    train_run f sp b n =
      ([], some (if f.solver.length = 0 then TrainFatal.needSolver
                 else TrainFatal.snapshotAndWeights)) := by
  unfold train_run
  by_cases h : f.solver.length = 0 <;> simp [h, hs, hw]

/-- C7 witness: the mutual-exclusion abort at a concrete invocation. -/
theorem train_snapshot_weights_mutually_exclusive_witness :
    train_run trainFlagsBoth ⟨none, none⟩ ⟨true, true⟩ 0
      = ([], some TrainFatal.snapshotAndWeights) := by
  rw [train_snapshot_weights_mutually_exclusive trainFlagsBoth ⟨none, none⟩
    ⟨true, true⟩ 0 (by decide) (by decide)]
  decide

/-- C3 counterexample: with two devices requested (`-gpu 0,1`) in a build
without `USE_CUDA` (hence without the NCCL collective-communication
capability), `train` does not terminate fatally: the multi-GPU branch at
caffe.cpp lines 288-296 is empty in such a build, so the command constructs
the solver and then completes without solving at all — neither the claimed
fatal diagnostic nor a fallback. -/
theorem train_multi_gpu_nocuda_no_fatal :
    get_gpus (train_effective_gpu trainFlagsMultiGpu.gpu ⟨none, none⟩) 0 = some [0, 1]
    ∧ (⟨false, false⟩ : BuildConfig).useCuda = false
    ∧ train_run trainFlagsMultiGpu ⟨none, none⟩ ⟨false, false⟩ 0
        = ([TrainEvent.createSolver], none) := by decide

/-- C3 (amended): when more than one device is resolved and the build lacks
the NCCL capability, `train` never runs the single-device solve loop; in a
`USE_CUDA` build it aborts fatally (with the rebuild-with-NCCL diagnostic,
unless an earlier validation already aborted), while in a build without
`USE_CUDA` the multi-GPU branch is empty and the command can finish without
any fatal error and without solving. -/
theorem train_multi_gpu_no_single_fallback
    (f : TrainFlags) (sp : SolverParams) (b : BuildConfig) (n : ℕ) (gpus : List Int)
    (hg : get_gpus (train_effective_gpu f.gpu sp) n = some gpus)
    (hlen : 1 < gpus.length)
    (hcap : ¬ (b.useCuda = true ∧ b.useNccl = true)) :
    TrainEvent.solveSingle ∉ (train_run f sp b n).1
    ∧ (b.useCuda = true → (train_run f sp b n).2.isSome = true)
    ∧ ((train_run f sp b n).2 = none → b.useCuda = false) := by
  unfold train_run
  by_cases h1 : f.solver.length = 0
  · simp [h1]
  · by_cases h2 : f.snapshot.length ≠ 0 ∧ f.weights.length ≠ 0
    · simp [h1, h2]
    · rw [if_neg h1, if_neg h2, hg]
      rcases hsi : GetRequestedAction f.sigint_effect with _ | a
      · simp
      · rcases hsh : GetRequestedAction f.sighup_effect with _ | a2
        · simp
        · simp only [if_pos hlen]
          cases hcu : b.useCuda
          · simp only [Bool.false_eq_true, if_false]
            refine ⟨?_, by simp, by simp⟩
            split_ifs <;> simp
          · have hnc : b.useNccl = false := by
              cases hb : b.useNccl
              · rfl
              · exact absurd ⟨hcu, hb⟩ hcap
            simp only [hnc, if_true, Bool.false_eq_true, if_false]
            refine ⟨?_, by simp, by simp⟩
            split_ifs <;> simp

/-- Helper: a successful `parseTokens` run has one entry per token, in token
order, each the parse of its token. -/
theorem parseTokens_some_spec (ts : List (List Char)) :
    ∀ l : List Int, parseTokens ts = some l →
      l.length = ts.length ∧
      ∀ i (hi : i < ts.length) (hl : i < l.length),
        parseIntToken (ts.get ⟨i, hi⟩) = some (l.get ⟨i, hl⟩) := by
  induction ts with
  | nil =>
    intro l h
    simp [parseTokens] at h
    subst h
    simp
  | cons t ts ih =>
    intro l h
    unfold parseTokens at h
    cases hv : parseIntToken t with
    | none => rw [hv] at h; exact absurd h (by simp)
    | some v =>
      rw [hv] at h
      rcases Option.map_eq_some'.mp h with ⟨l1, hl1, rfl⟩
      rcases ih l1 hl1 with ⟨hlen, hidx⟩
      refine ⟨by simp [hlen], ?_⟩
      intro i hi hl
      cases i with
      | zero => simpa using hv
      | succ i => simpa using hidx i (by simpa using hi) (by simpa using hl)

/-- Helper: a malformed token anywhere makes `parseTokens` abort. -/
theorem parseTokens_none_of_bad (ts : List (List Char)) (t : List Char)
    (ht : t ∈ ts) (hbad : parseIntToken t = none) : parseTokens ts = none := by
  induction ts with
  | nil => cases ht
  | cons t0 ts ih =>
    rcases List.mem_cons.mp ht with rfl | hmem
    · simp [parseTokens, hbad]
    · unfold parseTokens
      cases hv : parseIntToken t0 with
      | none => rfl
      | some v => simp [ih hmem]

/-- C8: for a device flag that is neither empty nor `"all"`, a successful
resolution has exactly one device id per comma-separated token, in input
order (hence duplicates preserved: entry `i` is always the parse of token
`i`), and any malformed token aborts the invocation with a parse error. -/
theorem get_gpus_list_resolution (s : String) (n : ℕ)
    (hall : s ≠ "all") (hne : s.length ≠ 0) :
    (∀ l, get_gpus s n = some l →
        l.length = (split_commas s.data).length ∧
        ∀ i (hi : i < (split_commas s.data).length) (hl : i < l.length),
          parseIntToken ((split_commas s.data).get ⟨i, hi⟩) = some (l.get ⟨i, hl⟩))
    ∧ ((∃ t ∈ split_commas s.data, parseIntToken t = none) → get_gpus s n = none) := by
  have hg : get_gpus s n = parseTokens (split_commas s.data) := by
    simp [get_gpus, hall, hne]
  constructor
  · intro l hl
    exact parseTokens_some_spec (split_commas s.data) l (hg ▸ hl)
  · rintro ⟨t, ht, hbad⟩
    rw [hg]
    exact parseTokens_none_of_bad (split_commas s.data) t ht hbad

/-- C8 witness: the resolution guarantees at the concrete flag `"0,2,0"`
(note the duplicated device id). -/
theorem get_gpus_list_resolution_witness :
    (∀ l, get_gpus "0,2,0" 5 = some l →
        l.length = (split_commas "0,2,0".data).length ∧
        ∀ i (hi : i < (split_commas "0,2,0".data).length) (hl : i < l.length),
          parseIntToken ((split_commas "0,2,0".data).get ⟨i, hi⟩) = some (l.get ⟨i, hl⟩))
    ∧ ((∃ t ∈ split_commas "0,2,0".data, parseIntToken t = none) →
        get_gpus "0,2,0" 5 = none) :=
  get_gpus_list_resolution "0,2,0" 5 (by decide) (by decide)

/-- Helper: processing a concatenation of scalars threads the running index
through both halves. -/
theorem class_add_blob_append (xs ys : List ℚ) :
    ∀ ts idx, class_add_blob ts idx (xs ++ ys) =
      (class_add_blob ts idx xs).bind (fun p => class_add_blob p.1 p.2 ys) := by
  induction xs with
  | nil => intro ts idx; simp [class_add_blob]
  | cons s xs ih =>
    intro ts idx
    show class_add_blob ts idx (s :: (xs ++ ys)) = _
    cases hs : class_add_scalar ts idx s with
    | none => simp [class_add_blob, hs]
    | some ts1 => simp [class_add_blob, hs, ih ts1 (idx + 1)]

/-- Helper: the `j`/`k` double loop over the result blobs is the single loop
over the flattened scalar list — the running `idx` enumerates exactly the
flattening. -/
theorem class_add_result_eq_flatten :
    ∀ (r : List (List ℚ)) ts idx,
      class_add_result ts idx r = class_add_blob ts idx r.flatten := by
  intro r
  induction r with
  | nil => intro ts idx; simp [class_add_result, class_add_blob]
  | cons blob r ih =>
    intro ts idx
    show class_add_result ts idx (blob :: r) = class_add_blob ts idx (blob ++ r.flatten)
    rw [class_add_blob_append]
    cases hb : class_add_blob ts idx blob with
    | none => simp [class_add_result, hb]
    | some p => simp [class_add_result, hb, ih p.1 p.2]

/-- Helper: with enough room, a blob's scalars are all added in bounds, the
index advances by the scalar count, and the sum list keeps its length. -/
theorem class_add_blob_success (ss : List ℚ) :
    ∀ ts idx, idx + ss.length ≤ ts.length →
      ∃ ts1, class_add_blob ts idx ss = some (ts1, idx + ss.length)
        ∧ ts1.length = ts.length := by
  induction ss with
  | nil => intro ts idx _; exact ⟨ts, by simp [class_add_blob], rfl⟩
  | cons s ss ih =>
    intro ts idx h
    have hidx : idx < ts.length := by simp at h; omega
    have hset : (ts.set idx (ts.get ⟨idx, hidx⟩ + s)).length = ts.length := by simp
    obtain ⟨ts2, h2, hlen2⟩ := ih (ts.set idx (ts.get ⟨idx, hidx⟩ + s)) (idx + 1)
      (by simp at h ⊢; omega)
    refine ⟨ts2, ?_, by rw [hlen2, hset]⟩
    have : idx + (s :: ss).length = idx + 1 + ss.length := by simp; omega
    rw [this]
    simp only [class_add_blob, class_add_scalar, dif_pos hidx]
    simpa using h2

/-- Helper: iterations whose flattened scalar count matches the running-sum
length never index out of bounds. -/
theorem class_go_isSome (rest : List (List (List ℚ) × ℚ)) :
    ∀ ts loss, (∀ p ∈ rest, p.1.flatten.length = ts.length) →
      (class_go ts loss rest).isSome = true := by
  induction rest with
  | nil => intro ts loss _; simp [class_go]
  | cons p rest ih =>
    intro ts loss h
    obtain ⟨r, l⟩ := p
    have hr : r.flatten.length = ts.length := h (r, l) (by simp)
    obtain ⟨ts1, h1, hlen1⟩ := class_add_blob_success r.flatten ts 0 (by omega)
    show (class_go ts loss ((r, l) :: rest)).isSome = true
    rw [class_go, class_add_result_eq_flatten, h1]
    exact ih ts1 (loss + l) (fun q hq => by rw [hlen1, ← hr]; exact (h q (by simp [hq])).trans hr.symm)

/-- C9: the classification aggregation fixes `test_score` from iteration 0
and never re-validates; if every later iteration yields the same flattened
scalar count as iteration 0, every `test_score[idx] += score` is in bounds —
the embedding's out-of-bounds branch (`none`) is unreachable. -/
theorem classification_index_safety (r0 : List (List ℚ)) (l0 : ℚ)
    (rest : List (List (List ℚ) × ℚ))
    (h : ∀ p ∈ rest, p.1.flatten.length = r0.flatten.length) :
    (class_run ((r0, l0) :: rest)).isSome = true := by
  rw [class_run]
  exact class_go_isSome rest r0.flatten l0 h

/-- C9 witness: two iterations with matching flattened counts (2 scalars)
but different blob shapes succeed. -/
theorem classification_index_safety_witness :
    (class_run (([[2], [3]], 0) :: [([[1, 5]], 0)])).isSome = true :=
  classification_index_safety [[2], [3]] 0 [([[1, 5]], 0)]
    (by intro p hp; rw [List.mem_singleton] at hp; subst hp; rfl)

/-- Helper: identical iterations whose flattened scalars are `[2, 4]` with
loss 1 advance the running state by `(+2, +4, +1)` each. -/
theorem class_go_replicate (r : List (List ℚ)) (hr : r.flatten = [2, 4]) :
    ∀ (k : ℕ) (a b l : ℚ),
      class_go [a, b] l (List.replicate k (r, 1)) =
        some ([a + 2 * k, b + 4 * k], l + k) := by
  intro k
  induction k with
  | zero => intro a b l; simp [class_go]
  | succ k ih =>
    intro a b l
    rw [List.replicate_succ]
    have hblob : class_add_blob [a, b] 0 [2, 4] = some ([a + 2, b + 4], 2) := by
      simp [class_add_blob, class_add_scalar]
    rw [class_go, class_add_result_eq_flatten, hr, hblob]
    show class_go [a + 2, b + 4] (l + 1) (List.replicate k (r, 1)) = _
    rw [ih (a + 2) (b + 4) (l + 1)]
    have e1 : a + 2 + 2 * (k : ℚ) = a + 2 * ((k : ℚ) + 1) := by ring
    have e2 : b + 4 + 4 * (k : ℚ) = b + 4 * ((k : ℚ) + 1) := by ring
    have e3 : l + 1 + (k : ℚ) = l + ((k : ℚ) + 1) := by ring
    push_cast
    rw [e1, e2, e3]

/-- C4: for every iteration count `N ≥ 1` and every blob structure whose
flattened scalars are `[2, 4]`, running the classification evaluation on `N`
identical iterations of those scalars with per-iteration loss 1 reports
per-output means `[2, 4]` and mean loss 1, independent of `N`. -/
theorem test_classification_identical_means
    (N : ℕ) (r : List (List ℚ)) (hN : 1 ≤ N) (hr : r.flatten = [2, 4]) :
    class_means (List.replicate N (r, 1)) = some ([2, 4], 1) := by
  obtain ⟨k, rfl⟩ : ∃ k, N = k + 1 := ⟨N - 1, by omega⟩
  have hrun : class_run (List.replicate (k + 1) (r, 1))
      = some (([2 + 2 * (k : ℚ), 4 + 4 * (k : ℚ)] : List ℚ), 1 + (k : ℚ)) := by
    rw [List.replicate_succ, class_run, hr, class_go_replicate r hr k 2 4 1]
  have hk : ((k : ℚ) + 1) ≠ 0 := by positivity
  rw [class_means, hrun]
  simp only [Option.map_some', List.map, List.length_replicate]
  push_cast
  have h1 : (2 + 2 * (k : ℚ)) / ((k : ℚ) + 1) = 2 := by rw [div_eq_iff hk]; ring
  have h2 : (4 + 4 * (k : ℚ)) / ((k : ℚ) + 1) = 4 := by rw [div_eq_iff hk]; ring
  have h3 : (1 + (k : ℚ)) / ((k : ℚ) + 1) = 1 := by rw [div_eq_iff hk]; ring
  rw [h1, h2, h3]

/-- C4 witness: two iterations of one blob holding `[2, 4]`. -/
theorem test_classification_identical_means_witness :
    class_means (List.replicate 2 ([[2, 4]], 1)) = some ([2, 4], 1) :=
  test_classification_identical_means 2 [[2, 4]] (by norm_num) (by rfl)

/-! ### Vocabulary for stating the detection-accumulation properties -/

/-- A sentinel row: `static_cast<int>(result_vec[k*5]) == -1`. -/
def isSentinel (r : DetRow) : Bool := ratTrunc r.c0 == -1

/-- A row both of whose flags truncate to zero (line 344). -/
def isIgnored (r : DetRow) : Bool := (ratTrunc r.c3 == 0) && (ratTrunc r.c4 == 0)

/-- The sentinel rows carrying a given label, in stream order. -/
def sentRowsFor (rows : List DetRow) (label : Int) : List DetRow :=
  rows.filter (fun r => isSentinel r && (ratTrunc r.c1 == label))

/-- The recorded detection rows for a given label (non-sentinel, not
both-flags-zero), in stream order. -/
def detRowsFor (rows : List DetRow) (label : Int) : List DetRow :=
  rows.filter (fun r => !isSentinel r && (ratTrunc r.c1 == label) && !isIgnored r)

/-- Lookup after `numpos_add` at the touched key. -/
theorem alist_find_numpos_add (m : List (Int × Int)) (k c : Int) :
    alist_find (numpos_add m k c) k = some ((alist_find m k).getD 0 + c) := by
  induction m with
  | nil => simp [numpos_add, alist_find]
  | cons p m ih =>
    obtain ⟨k0, v⟩ := p
    by_cases h : k0 = k
    · simp [numpos_add, alist_find, h]
    · simp [numpos_add, alist_find, h, ih]

/-- Lookup after `numpos_add` at any other key. -/
theorem alist_find_numpos_add_ne (m : List (Int × Int)) (k k' c : Int)
    (h : k' ≠ k) : alist_find (numpos_add m k c) k' = alist_find m k' := by
  induction m with
  | nil => simp [numpos_add, alist_find, Ne.symm h]
  | cons p m ih =>
    obtain ⟨k0, v⟩ := p
    by_cases h0 : k0 = k
    · subst h0
      simp [numpos_add, alist_find, Ne.symm h]
    · by_cases h1 : k0 = k'
      · simp [numpos_add, alist_find, h0, h1, h]
      · simp [numpos_add, alist_find, h0, h1, ih]

/-- Lookup after `pairs_push` at the touched key. -/
theorem alist_find_pairs_push (m : List (Int × List (ℚ × Int))) (k : Int)
    (pr : ℚ × Int) :
    alist_find (pairs_push m k pr) k = some ((alist_find m k).getD [] ++ [pr]) := by
  induction m with
  | nil => simp [pairs_push, alist_find]
  | cons p m ih =>
    obtain ⟨k0, v⟩ := p
    by_cases h : k0 = k
    · simp [pairs_push, alist_find, h]
    · simp [pairs_push, alist_find, h, ih]

/-- Lookup after `pairs_push` at any other key. -/
theorem alist_find_pairs_push_ne (m : List (Int × List (ℚ × Int))) (k k' : Int)
    (pr : ℚ × Int) (h : k' ≠ k) :
    alist_find (pairs_push m k pr) k' = alist_find m k' := by
  induction m with
  | nil => simp [pairs_push, alist_find, Ne.symm h]
  | cons p m ih =>
    obtain ⟨k0, v⟩ := p
    by_cases h0 : k0 = k
    · subst h0
      simp [pairs_push, alist_find, Ne.symm h]
    · by_cases h1 : k0 = k'
      · simp [pairs_push, alist_find, h0, h1, h]
      · simp [pairs_push, alist_find, h0, h1, ih]

/-- Helper: characterization of the positives-count accumulator after any
row stream, for an arbitrary starting accumulator. -/
theorem det_foldl_num_pos (rows : List DetRow) :
    ∀ (acc : DetAccum) (label : Int),
      alist_find (rows.foldl det_process_row acc).num_pos label =
        match alist_find acc.num_pos label with
        | none =>
          if sentRowsFor rows label = [] then none
          else some (((sentRowsFor rows label).map (fun r => ratTrunc r.c2)).sum)
        | some c => some (c + ((sentRowsFor rows label).map (fun r => ratTrunc r.c2)).sum) := by
  induction rows with
  | nil =>
    intro acc label
    cases hf : alist_find acc.num_pos label <;> simp [sentRowsFor, hf]
  | cons r rows ih =>
    intro acc label
    rw [List.foldl_cons, ih]
    by_cases h0 : ratTrunc r.c0 = -1
    · by_cases h1 : ratTrunc r.c1 = label
      · have hacc : (det_process_row acc r).num_pos
            = numpos_add acc.num_pos label (ratTrunc r.c2) := by
          simp [det_process_row, h0, h1]
        have hsent : sentRowsFor (r :: rows) label = r :: sentRowsFor rows label := by
          simp [sentRowsFor, List.filter_cons, isSentinel, h0, h1]
        rw [hacc, alist_find_numpos_add, hsent]
        cases hf : alist_find acc.num_pos label with
        | none => simp [hf]
        | some c => simp [hf]; omega
      · have hacc : (det_process_row acc r).num_pos
            = numpos_add acc.num_pos (ratTrunc r.c1) (ratTrunc r.c2) := by
          simp [det_process_row, h0]
        have hsent : sentRowsFor (r :: rows) label = sentRowsFor rows label := by
          simp [sentRowsFor, List.filter_cons, isSentinel, h0, h1]
        rw [hacc, alist_find_numpos_add_ne _ _ _ _ (Ne.symm h1), hsent]
    · have hacc : (det_process_row acc r).num_pos = acc.num_pos := by
        by_cases h34 : ratTrunc r.c3 = 0 ∧ ratTrunc r.c4 = 0 <;>
          simp [det_process_row, h0, h34]
      have hsent : sentRowsFor (r :: rows) label = sentRowsFor rows label := by
        simp [sentRowsFor, List.filter_cons, isSentinel, h0]
      rw [hacc, hsent]

/-- Helper: characterization of the true-positive accumulator after any row
stream, for an arbitrary starting accumulator. -/
theorem det_foldl_true_pos (rows : List DetRow) :
    ∀ (acc : DetAccum) (label : Int),
      alist_find (rows.foldl det_process_row acc).true_pos label =
        match alist_find acc.true_pos label with
        | none =>
          if detRowsFor rows label = [] then none
          else some ((detRowsFor rows label).map (fun r => (r.c2, ratTrunc r.c3)))
        | some l => some (l ++ (detRowsFor rows label).map (fun r => (r.c2, ratTrunc r.c3))) := by
  induction rows with
  | nil =>
    intro acc label
    cases hf : alist_find acc.true_pos label <;> simp [detRowsFor, hf]
  | cons r rows ih =>
    intro acc label
    rw [List.foldl_cons, ih]
    by_cases h0 : ratTrunc r.c0 = -1
    · have hacc : (det_process_row acc r).true_pos = acc.true_pos := by
        simp [det_process_row, h0]
      have hdet : detRowsFor (r :: rows) label = detRowsFor rows label := by
        simp [detRowsFor, List.filter_cons, isSentinel, h0]
      rw [hacc, hdet]
    · have hsent_f : isSentinel r = false := by simp [isSentinel, h0]
      by_cases h34 : ratTrunc r.c3 = 0 ∧ ratTrunc r.c4 = 0
      · have hacc : (det_process_row acc r).true_pos = acc.true_pos := by
          simp [det_process_row, h0, h34]
        have hdet : detRowsFor (r :: rows) label = detRowsFor rows label := by
          simp [detRowsFor, List.filter_cons, isIgnored, h34.1, h34.2]
        rw [hacc, hdet]
      · have hign : isIgnored r = false := by
          cases hb : isIgnored r
          · rfl
          · simp [isIgnored] at hb
            exact absurd hb h34
        by_cases h1 : ratTrunc r.c1 = label
        · have hacc : (det_process_row acc r).true_pos
              = pairs_push acc.true_pos label (r.c2, ratTrunc r.c3) := by
            simp [det_process_row, h0, h34, h1]
          have hdet : detRowsFor (r :: rows) label = r :: detRowsFor rows label := by
            simp [detRowsFor, List.filter_cons, hsent_f, hign, h1]
          rw [hacc, alist_find_pairs_push, hdet]
          cases hf : alist_find acc.true_pos label with
          | none => simp [hf]
          | some l => simp [hf]
        · have hacc : (det_process_row acc r).true_pos
              = pairs_push acc.true_pos (ratTrunc r.c1) (r.c2, ratTrunc r.c3) := by
            simp [det_process_row, h0, h34]
          have hdet : detRowsFor (r :: rows) label = detRowsFor rows label := by
            simp [detRowsFor, List.filter_cons, h1]
          rw [hacc, alist_find_pairs_push_ne _ _ _ _ (Ne.symm h1), hdet]

/-- Helper: characterization of the false-positive accumulator after any row
stream, for an arbitrary starting accumulator. -/
theorem det_foldl_false_pos (rows : List DetRow) :
    ∀ (acc : DetAccum) (label : Int),
      alist_find (rows.foldl det_process_row acc).false_pos label =
        match alist_find acc.false_pos label with
        | none =>
          if detRowsFor rows label = [] then none
          else some ((detRowsFor rows label).map (fun r => (r.c2, ratTrunc r.c4)))
        | some l => some (l ++ (detRowsFor rows label).map (fun r => (r.c2, ratTrunc r.c4))) := by
  induction rows with
  | nil =>
    intro acc label
    cases hf : alist_find acc.false_pos label <;> simp [detRowsFor, hf]
  | cons r rows ih =>
    intro acc label
    rw [List.foldl_cons, ih]
    by_cases h0 : ratTrunc r.c0 = -1
    · have hacc : (det_process_row acc r).false_pos = acc.false_pos := by
        simp [det_process_row, h0]
      have hdet : detRowsFor (r :: rows) label = detRowsFor rows label := by
        simp [detRowsFor, List.filter_cons, isSentinel, h0]
      rw [hacc, hdet]
    · have hsent_f : isSentinel r = false := by simp [isSentinel, h0]
      by_cases h34 : ratTrunc r.c3 = 0 ∧ ratTrunc r.c4 = 0
      · have hacc : (det_process_row acc r).false_pos = acc.false_pos := by
          simp [det_process_row, h0, h34]
        have hdet : detRowsFor (r :: rows) label = detRowsFor rows label := by
          simp [detRowsFor, List.filter_cons, isIgnored, h34.1, h34.2]
        rw [hacc, hdet]
      · have hign : isIgnored r = false := by
          cases hb : isIgnored r
          · rfl
          · simp [isIgnored] at hb
            exact absurd hb h34
        by_cases h1 : ratTrunc r.c1 = label
        · have hacc : (det_process_row acc r).false_pos
              = pairs_push acc.false_pos label (r.c2, ratTrunc r.c4) := by
            simp [det_process_row, h0, h34, h1]
          have hdet : detRowsFor (r :: rows) label = r :: detRowsFor rows label := by
            simp [detRowsFor, List.filter_cons, hsent_f, hign, h1]
          rw [hacc, alist_find_pairs_push, hdet]
          cases hf : alist_find acc.false_pos label with
          | none => simp [hf]
          | some l => simp [hf]
        · have hacc : (det_process_row acc r).false_pos
              = pairs_push acc.false_pos (ratTrunc r.c1) (r.c2, ratTrunc r.c4) := by
            simp [det_process_row, h0, h34]
          have hdet : detRowsFor (r :: rows) label = detRowsFor rows label := by
            simp [detRowsFor, List.filter_cons, h1]
          rw [hacc, alist_find_pairs_push_ne _ _ _ _ (Ne.symm h1), hdet]

/-- The spec's concrete detection stream for label 5: a sentinel contributing
3 and records (0.9,1,0), (0.8,0,1) in the first iteration, then a sentinel
contributing 2 and record (0.5,1,0) in the second; a both-flags-zero row
(0.7,0,0) is interleaved to exhibit its exclusion. -/
def exampleRows : List DetRow :=
  [⟨-1, 5, 3, 0, 0⟩,
   ⟨0, 5, 9/10, 1, 0⟩,
   ⟨1, 5, 8/10, 0, 1⟩,
   ⟨2, 5, 7/10, 0, 0⟩,
   ⟨-1, 5, 2, 0, 0⟩,
   ⟨3, 5, 5/10, 1, 0⟩]

/-- The accumulator the spec expects for `exampleRows`. -/
def exampleAccum : DetAccum :=
  ⟨[(5, [(9/10, 1), (8/10, 0), (5/10, 1)])],
   [(5, [(9/10, 0), (8/10, 1), (5/10, 0)])],
   [(5, 5)]⟩

/-- C5: after any row stream, the positives count of a label is exactly the
sum of its sentinel rows' count fields (absent iff no sentinel row), the
per-label true/false-positive sequences are exactly the (score, flag) pairs
of its recorded detection rows in encounter order (absent iff none), and
rows with both flags zero are in no accumulator; in particular the spec's
concrete example yields exactly the three pairs and positives count 5. -/
theorem detection_accumulator_contents :
    (∀ (rows : List DetRow) (label : Int),
      (alist_find (det_accumulate rows).num_pos label =
        (if sentRowsFor rows label = [] then none
         else some (((sentRowsFor rows label).map (fun r => ratTrunc r.c2)).sum)))
      ∧ (alist_find (det_accumulate rows).true_pos label =
        (if detRowsFor rows label = [] then none
         else some ((detRowsFor rows label).map (fun r => (r.c2, ratTrunc r.c3)))))
      ∧ (alist_find (det_accumulate rows).false_pos label =
        (if detRowsFor rows label = [] then none
         else some ((detRowsFor rows label).map (fun r => (r.c2, ratTrunc r.c4))))))
    ∧ det_accumulate exampleRows = exampleAccum := by
  constructor
  · intro rows label
    refine ⟨?_, ?_, ?_⟩
    · rw [det_accumulate, det_foldl_num_pos]
      simp [alist_find]
    · rw [det_accumulate, det_foldl_true_pos]
      simp [alist_find]
    · rw [det_accumulate, det_foldl_false_pos]
      simp [alist_find]
  · norm_num [det_accumulate, exampleRows, exampleAccum, det_process_row,
      ratTrunc, Int.ceil_neg, numpos_add, pairs_push]

/-- C10: in every accumulator state reachable from a row stream, the
true-positive and false-positive sequences of any label exist together,
have equal length, and carry the same confidence score at every position —
they are appended in lockstep from the same detection row. -/
theorem detection_accumulator_lockstep (rows : List DetRow) (label : Int) :
    ((alist_find (det_accumulate rows).true_pos label).isSome
      = (alist_find (det_accumulate rows).false_pos label).isSome)
    ∧ ((alist_find (det_accumulate rows).true_pos label).getD []).length
        = ((alist_find (det_accumulate rows).false_pos label).getD []).length
    ∧ ((alist_find (det_accumulate rows).true_pos label).getD []).map Prod.fst
        = ((alist_find (det_accumulate rows).false_pos label).getD []).map Prod.fst := by
  have ht := det_foldl_true_pos rows ⟨[], [], []⟩ label
  have hfp := det_foldl_false_pos rows ⟨[], [], []⟩ label
  simp only [alist_find] at ht hfp
  rw [det_accumulate, ht, hfp]
  by_cases hd : detRowsFor rows label = []
  · simp [hd]
  · simp [hd, List.map_map]

/-- Helper: when a label's true-positive (or false-positive) records are
missing, the mAP numerator sum is unchanged by deleting that label from the
positives-count map: the label contributes nothing. -/
theorem det_ap_sum_erase (ap : List (ℚ × Int) → Int → List (ℚ × Int) → ℚ)
    (tp fp : List (Int × List (ℚ × Int))) (label : Int)
    (h : alist_find tp label = none ∨ alist_find fp label = none) :
    ∀ np : List (Int × Int),
      det_ap_sum ap tp fp np
        = det_ap_sum ap tp fp (np.filter (fun p => !(p.1 == label))) := by
  intro np
  induction np with
  | nil => rfl
  | cons p np ih =>
    obtain ⟨k, v⟩ := p
    by_cases hk : k = label
    · have hdrop : det_ap_sum ap tp fp ((k, v) :: np) = det_ap_sum ap tp fp np := by
        subst hk
        rcases h with h | h
        · simp [det_ap_sum, h]
        · cases htp : alist_find tp k with
          | none => simp [det_ap_sum, htp]
          | some ltp => simp [det_ap_sum, htp, h]
      have hfil : ((k, v) :: np).filter (fun p => !(p.1 == label))
          = np.filter (fun p => !(p.1 == label)) := by
        simp [List.filter_cons, hk]
      rw [hdrop, hfil, ih]
    · have hfil : ((k, v) :: np).filter (fun p => !(p.1 == label))
          = (k, v) :: np.filter (fun p => !(p.1 == label)) := by
        simp [List.filter_cons, hk]
      rw [hfil]
      cases htp : alist_find tp k with
      | none => simp [det_ap_sum, htp, ih]
      | some ltp =>
        cases hfp2 : alist_find fp k with
        | none => simp [det_ap_sum, htp, hfp2, ih]
        | some lfp => simp [det_ap_sum, htp, hfp2, ih]

/-- Helper: deleting a present key strictly shrinks the positives-count map. -/
theorem alist_find_isSome_filter_lt (np : List (Int × Int)) (label : Int)
    (h : (alist_find np label).isSome = true) :
    (np.filter (fun p => !(p.1 == label))).length < np.length := by
  induction np with
  | nil => simp [alist_find] at h
  | cons p np ih =>
    obtain ⟨k, v⟩ := p
    by_cases hk : k = label
    · have hfil : (((k, v) :: np).filter (fun p => !(p.1 == label)))
          = np.filter (fun p => !(p.1 == label)) := by
        simp [List.filter_cons, hk]
      rw [hfil]
      exact lt_of_le_of_lt (List.length_filter_le _ _) (by simp)
    · have hfil : (((k, v) :: np).filter (fun p => !(p.1 == label)))
          = (k, v) :: np.filter (fun p => !(p.1 == label)) := by
        simp [List.filter_cons, hk]
      have h' : (alist_find np label).isSome = true := by
        simpa [alist_find, hk] using h
      rw [hfil]
      simpa using ih h'

/-- C6: a label with a positives-count entry but no accumulated true-positive
(or false-positive) sequence is skipped by the mAP loop — deleting it from
the positives map leaves the numerator sum unchanged — yet the reported mean
divides by the size of the full positives map, in which the skipped label
still counts (the filtered map is strictly smaller). -/
theorem detection_mean_skipped_label
    (ap : List (ℚ × Int) → Int → List (ℚ × Int) → ℚ) (acc : DetAccum) (label : Int)
    (h1 : (alist_find acc.num_pos label).isSome = true)
    (h2 : alist_find acc.true_pos label = none ∨ alist_find acc.false_pos label = none) :
    det_ap_sum ap acc.true_pos acc.false_pos acc.num_pos
      = det_ap_sum ap acc.true_pos acc.false_pos
          (acc.num_pos.filter (fun p => !(p.1 == label)))
    ∧ (acc.num_pos.filter (fun p => !(p.1 == label))).length < acc.num_pos.length
    ∧ det_mAP ap acc
      = det_ap_sum ap acc.true_pos acc.false_pos acc.num_pos
          / (acc.num_pos.length : ℚ) :=
  ⟨det_ap_sum_erase ap _ _ label h2 acc.num_pos,
   alist_find_isSome_filter_lt acc.num_pos label h1, rfl⟩

/-- A concrete accumulator where label 7 has a positives count but no
true/false-positive records. -/
def exampleSkipAccum : DetAccum :=
  ⟨[(5, [(1/2, 1)])], [(5, [(1/2, 0)])], [(5, 3), (7, 2)]⟩

/-- C6 witness: the skipped-label behaviour at `exampleSkipAccum`, label 7,
with the AP oracle returning the positives count. -/
theorem detection_mean_skipped_label_witness :
    det_ap_sum (fun _ np _ => (np : ℚ)) exampleSkipAccum.true_pos
        exampleSkipAccum.false_pos exampleSkipAccum.num_pos
      = det_ap_sum (fun _ np _ => (np : ℚ)) exampleSkipAccum.true_pos
          exampleSkipAccum.false_pos
          (exampleSkipAccum.num_pos.filter (fun p => !(p.1 == 7)))
    ∧ (exampleSkipAccum.num_pos.filter (fun p => !(p.1 == 7))).length
        < exampleSkipAccum.num_pos.length
    ∧ det_mAP (fun _ np _ => (np : ℚ)) exampleSkipAccum
      = det_ap_sum (fun _ np _ => (np : ℚ)) exampleSkipAccum.true_pos
          exampleSkipAccum.false_pos exampleSkipAccum.num_pos
          / (exampleSkipAccum.num_pos.length : ℚ) :=
  detection_mean_skipped_label (fun _ np _ => (np : ℚ)) exampleSkipAccum 7
    (by decide) (Or.inl (by decide))

/-- C3 witness: two devices requested in a CUDA build without NCCL — no
single-device fallback and a fatal outcome. -/
theorem train_multi_gpu_no_single_fallback_witness :
    TrainEvent.solveSingle ∉ (train_run trainFlagsMultiGpu ⟨none, none⟩ ⟨true, false⟩ 0).1
    ∧ ((⟨true, false⟩ : BuildConfig).useCuda = true →
        (train_run trainFlagsMultiGpu ⟨none, none⟩ ⟨true, false⟩ 0).2.isSome = true)
    ∧ ((train_run trainFlagsMultiGpu ⟨none, none⟩ ⟨true, false⟩ 0).2 = none →
        (⟨true, false⟩ : BuildConfig).useCuda = false) :=
  train_multi_gpu_no_single_fallback trainFlagsMultiGpu ⟨none, none⟩ ⟨true, false⟩ 0
    [0, 1] (by decide) (by decide) (by decide)
